import Mathlib

/-!
Verification of the coasagent orchestration core: a shallow embedding of the
resilient generation client (`AIClient`), the bounded feed store
(`RSSFeedManager` / `RSSGenerator`), and the instance scheduler
(`InstanceManager`), together with theorems settling the specification's
claims about them.

Conventions of the embedding:
* JavaScript `Map`s and plain-object records are modelled as association
  lists (`List (String × α)`) preserving insertion order; `mapSet` replaces
  the binding of an existing key in place (as `Map.set` / record assignment
  does — a JS `Map` never holds two bindings for one key) and otherwise
  appends at the end.
* Timestamps (`Date.now()`, `Date#getTime()`) are integers (milliseconds).
* Backend invocations, the Collector and the Processor are external
  collaborators; they are passed in as oracle functions.  A thrown
  exception is an `Except.error` / `CallResult.failure` carrying the
  message string.
* `Array.prototype.sort` is required to be stable by the ECMAScript
  standard; it is modelled by the (stable) `List.mergeSort`.
* Locale-dependent date rendering (`toLocaleDateString` /
  `toLocaleTimeString`) is modelled by explicit function parameters
  `locDate` / `locTime`.
-/

/-- Lookup in an insertion-ordered association list (JS `Map.get` /
record subscript). -/
def mapGet {α : Type} (m : List (String × α)) (k : String) : Option α :=
  (m.find? (fun p => p.1 == k)).map (·.2)

/-- Update in an insertion-ordered association list (JS `Map.set` /
record assignment): replaces the binding of an existing key in place,
otherwise appends a new binding at the end. -/
def mapSet {α : Type} (m : List (String × α)) (k : String) (v : α) :
    List (String × α) :=
  match m with
  | [] => [(k, v)]
  | p :: rest => if p.1 == k then (k, v) :: rest else p :: mapSet rest k v

/-- Removal from an association list (JS `Map.delete`). -/
def mapDelete {α : Type} (m : List (String × α)) (k : String) :
    List (String × α) :=
  m.filter (fun p => !(p.1 == k))

/-! ## Resilient Client (`AIClient`, src lib/ai-client) -/

/-- Outcome of invoking one generation backend (the `geminiClient`
call or `makeAPICall`): either resolved text or a thrown error whose
message is inspected by the retry loop. -/
inductive CallResult where
  | success (text : String)
  | failure (message : String)
deriving DecidableEq, Repr

/-- JS `String.prototype.includes`. -/
def strIncludes (s pat : String) : Bool :=
  decide (pat.data <:+: s.data)

/-- The error classification in `generateResponse`:
`error.message.includes("rate_limit") || error.message.includes("quota")`. -/
def isRateLimitError (msg : String) : Bool :=
  strIncludes msg "rate_limit" || strIncludes msg "quota"

/-- Mutable state of `AIClient`: the ranked backend list, the shared
current-rank cursor, and the per-backend cooldown-expiry record. -/
structure AIClientState where
  models : List String
  currentModelIndex : Nat
  rateLimitCooldown : List (String × Int)
deriving DecidableEq, Repr

/-- The backend list hard-coded in the `AIClient` constructor. -/
def defaultModels : List String :=
  ["gemini-2.0-flash-exp", "gemini-1.5-pro", "gemini-1.5-flash"]

/-- The freshly constructed client: cursor at rank 0, no cooldowns. -/
def initialAIClientState : AIClientState :=
  { models := defaultModels, currentModelIndex := 0, rateLimitCooldown := [] }

/-- `this.models[this.currentModelIndex]` (the cursor never leaves the
list bounds when the list is nonempty). -/
def getCurrentModel (st : AIClientState) : String :=
  st.models.getD st.currentModelIndex ""

/-- The stored cooldown-expiry for a backend, if any. -/
def cooldownOf (st : AIClientState) (model : String) : Option Int :=
  mapGet st.rateLimitCooldown model

/-- The check `this.rateLimitCooldown[model] && Date.now() < this.rateLimitCooldown[model]`
(a stored value of `0` is falsy in JS, hence the explicit `0` test). -/
def inCooldown (st : AIClientState) (model : String) (now : Int) : Bool :=
  match cooldownOf st model with
  | some c => !(c == 0) && decide (now < c)
  | none => false

/-- `this.rateLimitCooldown[model] = v`. -/
def setCooldown (st : AIClientState) (model : String) (v : Int) :
    AIClientState :=
  { st with rateLimitCooldown := mapSet st.rateLimitCooldown model v }

/-- `downgradeModel`: move the cursor one rank worse, clamped at the
worst rank. -/
def downgradeModel (st : AIClientState) : AIClientState :=
  if st.currentModelIndex < st.models.length - 1 then
    { st with currentModelIndex := st.currentModelIndex + 1 }
  else st

/-- `noRecentRateLimits`: no stored cooldown-expiry lies in the future. -/
def noRecentRateLimits (st : AIClientState) (now : Int) : Bool :=
  !(st.rateLimitCooldown.any (fun p => decide (now < p.2)))

/-- `upgradeModelIfPossible`: move one rank better when above rank 0 and
no backend anywhere is presently in cooldown. -/
def upgradeModelIfPossible (st : AIClientState) (now : Int) : AIClientState :=
  if st.currentModelIndex > 0 && noRecentRateLimits st now then
    { st with currentModelIndex := st.currentModelIndex - 1 }
  else st

/-- The retry loop of `generateResponse`, with `attempts` counting up to
`maxRetries` exactly as the source's `while (attempts < maxRetries)`.
The backend invocation is the oracle `call`, indexed by the attempt
number and the targeted model.  Returns the settled result together
with the client state after the call. -/
def generateLoop (call : Nat → String → CallResult) (now : Int)
    (maxRetries : Nat) (attempts : Nat) (st : AIClientState) :
    Except String String × AIClientState :=
  if attempts < maxRetries then
    let model := getCurrentModel st
    if inCooldown st model now then
      generateLoop call now maxRetries (attempts + 1) (downgradeModel st)
    else
      match call attempts model with
      | .success text => (.ok text, upgradeModelIfPossible st now)
      | .failure msg =>
        let st1 := if isRateLimitError msg then
            setCooldown st model (now + 5 * 60 * 1000)
          else st
        generateLoop call now maxRetries (attempts + 1) (downgradeModel st1)
  else
    (.error "All models exhausted after maximum retries", st)
termination_by maxRetries - attempts
decreasing_by all_goals omega

/-- `generateResponse(prompt, maxRetries = 3)`: run the retry loop from
zero attempts. -/
def generateResponse (call : Nat → String → CallResult) (now : Int)
    (st : AIClientState) (maxRetries : Nat := 3) :
    Except String String × AIClientState :=
  generateLoop call now maxRetries 0 st

/-! ## Feed Store (`RSSGenerator` / `RSSFeedManager`, src lib/rss-generator) -/

/-- One published feed item (interface `RSSItem`). -/
structure RSSItem where
  id : String
  title : String
  content : String
  pubDate : Int
  category : String
  sourceAttribution : String
  link : Option String
deriving DecidableEq, Repr

/-- Channel metadata of one category feed (interface `RSSFeed.channel`). -/
structure RSSChannel where
  title : String
  description : String
  category : String
  lastUpdated : Int
  generator : String
  link : String
deriving DecidableEq, Repr

/-- One category feed (interface `RSSFeed`). -/
structure RSSFeed where
  channel : RSSChannel
  items : List RSSItem
deriving DecidableEq, Repr

/-- State of `RSSFeedManager`: the category-keyed feed map and the
`maxItemsPerFeed` bound (initialised to 50 by the constructor). -/
structure RSSFeedManager where
  feeds : List (String × RSSFeed)
  maxItemsPerFeed : Nat
deriving DecidableEq, Repr

/-- A freshly constructed `RSSFeedManager`. -/
def emptyRSSFeedManager : RSSFeedManager :=
  { feeds := [], maxItemsPerFeed := 50 }

/-- The configuration record captured per instance (interface
`AgentConfig` in lib/types). -/
structure LocationConfig where
  googleMapsPin : String
  radiusKm : Int
deriving DecidableEq, Repr

structure RoleConfig where
  primaryRole : String
  focusTopic : String
  targetAudience : String
  searchPurpose : String
  dataPresentation : String
deriving DecidableEq, Repr

structure PersonalitySliders where
  socialMood : Int
  politicalBearing : Int
  techSavviness : Int
  presentationStyle : Int
  contentDensity : Int
deriving DecidableEq, Repr

structure DataSourcesConfig where
  llm : Bool
  internet : Bool
  reddit : Bool
  facebook : Bool
  twitter : Bool
  youtube : Bool
  instagram : Bool
deriving DecidableEq, Repr

structure ModifiersConfig where
  hardFacts : Bool
  meaningFocus : Bool
  suggestiveMode : Bool
  strictGuidance : Bool
  laymanFriendly : Bool
  adultLanguage : Bool
  includeToolbox : Bool
  includeTips : Bool
deriving DecidableEq, Repr

structure AgentConfig where
  location : LocationConfig
  role : RoleConfig
  personalitySliders : PersonalitySliders
  contextOverride : String
  outputFormat : String
  dataSources : DataSourcesConfig
  modifiers : ModifiersConfig
deriving DecidableEq, Repr

/-- The `formatTitles` lookup record in `createFeedForFormat`. -/
def formatTitles (format : String) : Option String :=
  mapGet
    [("normal", "COASAGENT - Normal Output"),
     ("question", "COASAGENT - Question Mode"),
     ("emoji", "COASAGENT - Emoji Mode"),
     ("quote", "COASAGENT - Quote Mode"),
     ("info", "COASAGENT - Info Insights"),
     ("proverb", "COASAGENT - Proverb Mode"),
     ("csv", "COASAGENT - CSV Data"),
     ("json", "COASAGENT - JSON Data")] format

/-- The `formatDescriptions` lookup record in `createFeedForFormat`. -/
def formatDescriptions (format : String) : Option String :=
  mapGet
    [("normal", "AI-generated insights and analysis in plain text format"),
     ("question", "Six insightful questions with comprehensive summaries"),
     ("emoji", "Best emojis representing current trends and insights"),
     ("quote", "Insightful quotes based on current events and trends"),
     ("info", "Six informative insights into current topics"),
     ("proverb", "Wisdom and proverbs based on current events"),
     ("csv", "Structured data in CSV format for analysis"),
     ("json", "Structured data in JSON format for integration")] format

/-- `RSSGenerator.generateItemTitle`.  `locDate`/`locTime` stand for
`toLocaleDateString`/`toLocaleTimeString`; `config.role?.focusTopic ||
"General Topics"` falls back on the empty (falsy) string. -/
def generateItemTitle (locDate locTime : Int → String) (format : String)
    (config : AgentConfig) (timestamp : Int) : String :=
  let dateStr := locDate timestamp
  let timeStr := locTime timestamp
  let baseTopic := if config.role.focusTopic == "" then "General Topics"
    else config.role.focusTopic
  if format == "question" then
    "6 Questions About " ++ baseTopic ++ " - " ++ dateStr
  else if format == "emoji" then
    "Top Emojis for " ++ baseTopic ++ " - " ++ dateStr
  else if format == "quote" then
    "Daily Quote: " ++ baseTopic ++ " - " ++ dateStr
  else if format == "info" then
    "6 Insights: " ++ baseTopic ++ " - " ++ dateStr
  else if format == "proverb" then
    "Daily Proverb: " ++ baseTopic ++ " - " ++ dateStr
  else if format == "csv" then
    baseTopic ++ " Data (CSV) - " ++ dateStr
  else if format == "json" then
    baseTopic ++ " Data (JSON) - " ++ dateStr
  else
    baseTopic ++ " Analysis - " ++ dateStr ++ " " ++ timeStr

/-- The `baseUrl` constant of `createFeedForFormat`. -/
def baseUrl : String := "https://coasagent.example.com"

/-- The fresh item built by `RSSGenerator.createFeedForFormat`
(`timestamp` is the `new Date()` taken at the head of that function). -/
def newFeedItem (locDate locTime : Int → String) (format content : String)
    (config : AgentConfig) (sourceAttribution : String) (timestamp : Int) :
    RSSItem :=
  { id := "coasagent-" ++ format ++ "-" ++ toString timestamp
    title := generateItemTitle locDate locTime format config timestamp
    content := content
    pubDate := timestamp
    category := format
    sourceAttribution := sourceAttribution
    link := some (baseUrl ++ "/rss/" ++ format) }

/-- `RSSGenerator.createFeedForFormat`. -/
def createFeedForFormat (locDate locTime : Int → String)
    (format content : String) (config : AgentConfig)
    (sourceAttribution : String) (timestamp : Int) : RSSFeed :=
  { channel :=
      { title := (formatTitles format).getD "COASAGENT - Unknown Format"
        description :=
          (formatDescriptions format).getD "AI-generated content"
        category := format
        lastUpdated := timestamp
        generator := "COASAGENT v1.0"
        link := baseUrl ++ "/rss/" ++ format }
    items := [newFeedItem locDate locTime format content config
      sourceAttribution timestamp] }

/-- `RSSFeedManager.addItem`: build the fresh feed, prepend its (single)
item to the existing feed for the format — truncating to
`maxItemsPerFeed` when the bound is exceeded and refreshing the
channel's `lastUpdated` — or install the fresh feed if the format is
new. -/
def addItem (locDate locTime : Int → String) (mgr : RSSFeedManager)
    (format content : String) (config : AgentConfig)
    (sourceAttribution : String) (now : Int) : RSSFeedManager :=
  let newFeed := createFeedForFormat locDate locTime format content config
    sourceAttribution now
  match mapGet mgr.feeds format with
  | some existingFeed =>
    let items1 := newFeed.items ++ existingFeed.items
    let items2 := if items1.length > mgr.maxItemsPerFeed then
        items1.take mgr.maxItemsPerFeed
      else items1
    let updatedFeed : RSSFeed :=
      { channel := { existingFeed.channel with lastUpdated := now },
        items := items2 }
    { mgr with feeds := mapSet mgr.feeds format updatedFeed }
  | none =>
    { mgr with feeds := mapSet mgr.feeds format newFeed }

/-- `RSSFeedManager.getFeed`. -/
def getFeed (mgr : RSSFeedManager) (format : String) : Option RSSFeed :=
  mapGet mgr.feeds format

/-- The stored item list of one category (empty when the category has
never been written). -/
def itemsOf (mgr : RSSFeedManager) (format : String) : List RSSItem :=
  match getFeed mgr format with
  | some feed => feed.items
  | none => []

/-- One recorded invocation of `addItem` against a fixed category. -/
structure AppendCall where
  content : String
  config : AgentConfig
  sourceAttribution : String
  now : Int

/-- The item that one recorded `addItem` invocation constructs. -/
def appendItem (locDate locTime : Int → String) (format : String)
    (c : AppendCall) : RSSItem :=
  newFeedItem locDate locTime format c.content c.config c.sourceAttribution
    c.now

/-- Replay a sequence of `addItem` calls against one category. -/
def applyAppends (locDate locTime : Int → String) (format : String)
    (calls : List AppendCall) (mgr : RSSFeedManager) : RSSFeedManager :=
  calls.foldl (fun m c =>
    addItem locDate locTime m format c.content c.config c.sourceAttribution
      c.now) mgr

/-- The comparator of `getLatestItems`: the JS callback
`(a, b) => b.item.pubDate.getTime() - a.item.pubDate.getTime()` places
`a` no later than `b` exactly when `b`'s publish time is at most `a`'s
(publication date descending). -/
def pubDateDescLE (a b : String × RSSItem) : Bool :=
  decide (b.2.pubDate ≤ a.2.pubDate)

/-- The flattening step of `getLatestItems`: every category's items, in
map insertion order, tagged with their format. -/
def allFeedItems (mgr : RSSFeedManager) : List (String × RSSItem) :=
  mgr.feeds.flatMap (fun p => p.2.items.map (fun it => (p.1, it)))

/-- `RSSFeedManager.getLatestItems(limit = 10)`: flatten, stable-sort by
publication date descending, return the first `limit`. -/
def getLatestItems (mgr : RSSFeedManager) (limit : Nat := 10) :
    List (String × RSSItem) :=
  ((allFeedItems mgr).mergeSort pubDateDescLE).take limit

/-- `RSSFeedManager.clearOldItems(maxAgeHours = 168)`: keep, in every
feed, exactly the items whose publish time is strictly after
`now - maxAgeHours` hours (`item.pubDate > cutoffTime` in the source). -/
def clearOldItems (mgr : RSSFeedManager) (now : Int)
    (maxAgeHours : Int := 168) : RSSFeedManager :=
  let cutoffTime := now - maxAgeHours * 60 * 60 * 1000
  { mgr with feeds := mgr.feeds.map (fun p =>
      (p.1, { p.2 with
        items := p.2.items.filter (fun it => decide (cutoffTime < it.pubDate)) })) }

/-- A one-item manager whose single item sits exactly at the purge
cutoff for `now = 604800000` (168 hours in milliseconds). -/
def boundaryFeedManager : RSSFeedManager :=
  { feeds := [("info",
      { channel :=
          { title := "COASAGENT - Info Insights",
            description := "Six informative insights into current topics",
            category := "info",
            lastUpdated := 0,
            generator := "COASAGENT v1.0",
            link := "https://coasagent.example.com/rss/info" },
        items := [{
          id := "coasagent-info-0",
          title := "t",
          content := "c",
          pubDate := 0,
          category := "info",
          sourceAttribution := "s",
          link := none }] })],
    maxItemsPerFeed := 50 }

/-! ## Collected content (interface `ProcessedContent` in lib/types) -/

structure RelevanceScores where
  geographic : Int
  topic : Int
  overall : Int
deriving DecidableEq, Repr

structure ContentMetadata where
  locationMentions : List String
  keyTopics : List String
  sentiment : Int
  technicalLevel : Int
deriving DecidableEq, Repr

structure ProcessedContent where
  id : String
  source : String
  timestamp : Int
  rawContent : String
  processedContent : String
  relevanceScores : RelevanceScores
  metadata : ContentMetadata
deriving DecidableEq, Repr

/-! ## Decimal rendering, decoded (infrastructure for identifier uniqueness) -/

/-- Numeric value of a decimal digit character (proof infrastructure for
identifier uniqueness, not part of the source). -/
def digitVal (c : Char) : Nat := c.toNat - 48

/-- Decode a decimal digit string back to the number it renders. -/
def decodeDigits (l : List Char) : Nat :=
  l.foldl (fun acc c => acc * 10 + digitVal c) 0

/-- A minimal concrete configuration value. -/
def sampleConfig : AgentConfig where
  location := ⟨"", 0⟩
  role := ⟨"", "", "", "", ""⟩
  personalitySliders := ⟨0, 0, 0, 0, 0⟩
  contextOverride := ""
  outputFormat := "info"
  dataSources := ⟨false, false, false, false, false, false, false⟩
  modifiers := ⟨false, false, false, false, false, false, false, false⟩

/-- Two appends to the same category within one millisecond. -/
def sameMillisecondCalls : List AppendCall :=
  [{ content := "first", config := sampleConfig,
     sourceAttribution := "s1", now := 5 },
   { content := "second", config := sampleConfig,
     sourceAttribution := "s2", now := 5 }]

/-- Two appends to the same category at distinct milliseconds. -/
def distinctTimeCalls : List AppendCall :=
  [{ content := "first", config := sampleConfig,
     sourceAttribution := "s1", now := 5 },
   { content := "second", config := sampleConfig,
     sourceAttribution := "s2", now := 6 }]

/-- Iteration of JS `new Set(array)` insertion: emit each entry not yet
seen, in first-occurrence order. -/
def dedupFirstAux (seen : List String) : List String → List String
  | [] => []
  | x :: xs =>
    if seen.contains x then dedupFirstAux seen xs
    else x :: dedupFirstAux (x :: seen) xs

/-- JS `[...new Set(array)]`: distinct entries in first-occurrence
order. -/
def dedupFirst (l : List String) : List String := dedupFirstAux [] l

/-- The source-attribution summary built in
`InstanceManager.executeAgentCycle`:
`Generated from N sources: s1, s2, s3...` where the sources are the
distinct source identifiers of the collected items in first-occurrence
order, the first three joined with `", "`, and the literal suffix
`"..."` added exactly when more than three distinct sources exist. -/
def sourceAttributionOf (collectedData : List ProcessedContent) : String :=
  let sources := dedupFirst (collectedData.map (·.source))
  "Generated from " ++ toString sources.length ++ " sources: " ++
    String.intercalate ", " (sources.take 3) ++
    (if sources.length > 3 then "..." else "")

/-- A collected item carrying only a source identifier. -/
def srcItem (s : String) : ProcessedContent where
  id := ""
  source := s
  timestamp := 0
  rawContent := ""
  processedContent := ""
  relevanceScores := ⟨0, 0, 0⟩
  metadata := ⟨[], [], 0, 0⟩

/-! ## Instance Scheduler (`InstanceManager`, src lib/instance-manager) -/

/-- The `AgentInstance.status` union type. -/
inductive InstanceStatus where
  | running
  | stopped
  | error
deriving DecidableEq, Repr

/-- Interface `AgentInstance` of lib/types: the registry entry of one
agent job.  The `setInterval` handle is an integer timer id. -/
structure AgentInstance where
  id : String
  config : AgentConfig
  status : InstanceStatus
  lastUpdate : Int
  cronJob : Option Int
deriving DecidableEq, Repr

/-- State of `InstanceManager`: the id-keyed instance registry. -/
structure InstanceManager where
  instances : List (String × AgentInstance)
deriving DecidableEq, Repr

/-- A freshly constructed `InstanceManager`. -/
def emptyInstanceManager : InstanceManager := ⟨[]⟩

/-- `InstanceManager.createInstance` (the generated id — built in the
source from `Date.now()` and a random suffix — is supplied as the
parameter `instanceId`). -/
def createInstance (mgr : InstanceManager) (config : AgentConfig)
    (instanceId : String) (now : Int) : String × InstanceManager :=
  (instanceId, ⟨mapSet mgr.instances instanceId
    { id := instanceId
      config := config
      status := .stopped
      lastUpdate := now
      cronJob := none }⟩)

/-- `InstanceManager.startInstance`: unknown id fails; an already
running instance is a no-op success; otherwise arm the recurring timer
(the `setInterval` handle is the parameter `timerId`; arming cannot
fail in the model, so the source's catch branch setting status `error`
is unreachable), set status `running`, refresh `lastUpdate`. -/
def startInstance (mgr : InstanceManager) (instanceId : String)
    (now : Int) (timerId : Int) : Bool × InstanceManager :=
  match mapGet mgr.instances instanceId with
  | none => (false, mgr)
  | some inst =>
    if inst.status == .running then (true, mgr)
    else (true, ⟨mapSet mgr.instances instanceId
      { inst with
          cronJob := some timerId
          status := .running
          lastUpdate := now }⟩)

/-- `InstanceManager.stopInstance`: unknown id fails; otherwise clear
the timer handle, set status `stopped`, refresh `lastUpdate`. -/
def stopInstance (mgr : InstanceManager) (instanceId : String)
    (now : Int) : Bool × InstanceManager :=
  match mapGet mgr.instances instanceId with
  | none => (false, mgr)
  | some inst =>
    (true, ⟨mapSet mgr.instances instanceId
      { inst with
          cronJob := none
          status := .stopped
          lastUpdate := now }⟩)

/-- `InstanceManager.deleteInstance`: stop first, then remove from the
registry. -/
def deleteInstance (mgr : InstanceManager) (instanceId : String)
    (now : Int) : Bool × InstanceManager :=
  match mapGet mgr.instances instanceId with
  | none => (false, mgr)
  | some _ =>
    (true, ⟨mapDelete ((stopInstance mgr instanceId now).2).instances
      instanceId⟩)

/-- The status recorded for an id, if present. -/
def statusOf (mgr : InstanceManager) (instanceId : String) :
    Option InstanceStatus :=
  (mapGet mgr.instances instanceId).map (·.status)

/-- The timer handle recorded for an id, if present. -/
def cronJobOf (mgr : InstanceManager) (instanceId : String) :
    Option (Option Int) :=
  (mapGet mgr.instances instanceId).map (·.cronJob)

/-- `InstanceManager.executeAgentCycle`: skip unless the instance is
`running`; collect (Collector oracle); an empty collection is a no-op
cycle; process (Processor oracle); build the source attribution; append
to the feed store under the configured output format; refresh
`lastUpdate`.  A throw anywhere (collect or process rejecting) lands in
the catch block, which sets status `error` and `lastUpdate`, then calls
`stopInstance` — which in turn overwrites the status to `stopped`. -/
def executeAgentCycle
    (collect : AgentConfig → Except String (List ProcessedContent))
    (process : AgentConfig → List ProcessedContent → Except String String)
    (locDate locTime : Int → String) (now : Int)
    (mgr : InstanceManager) (rss : RSSFeedManager)
    (instanceId : String) : InstanceManager × RSSFeedManager :=
  match mapGet mgr.instances instanceId with
  | none => (mgr, rss)
  | some inst =>
    if !(inst.status == .running) then (mgr, rss)
    else
      match collect inst.config with
      | .error _ =>
        let mgrE : InstanceManager := ⟨mapSet mgr.instances instanceId
          { inst with
              status := .error
              lastUpdate := now }⟩
        ((stopInstance mgrE instanceId now).2, rss)
      | .ok collectedData =>
        if collectedData.length == 0 then (mgr, rss)
        else
          match process inst.config collectedData with
          | .error _ =>
            let mgrE : InstanceManager := ⟨mapSet mgr.instances instanceId
              { inst with
                  status := .error
                  lastUpdate := now }⟩
            ((stopInstance mgrE instanceId now).2, rss)
          | .ok processedContent =>
            let sourceAttribution := sourceAttributionOf collectedData
            let rss1 := addItem locDate locTime rss
              inst.config.outputFormat processedContent inst.config
              sourceAttribution now
            (⟨mapSet mgr.instances instanceId
              { inst with lastUpdate := now }⟩, rss1)

/-- A registry holding one `running` instance with an armed timer. -/
def runningManager : InstanceManager :=
  ⟨[("a",
    { id := "a"
      config := sampleConfig
      status := .running
      lastUpdate := 0
      cronJob := some 1 })]⟩

/-- A collector oracle returning one item. -/
def collectOne : AgentConfig → Except String (List ProcessedContent) :=
  fun _ => .ok [srcItem "RSS: https://techcrunch.com/feed/"]

/-- A processor oracle that throws. -/
def processThrow :
    AgentConfig → List ProcessedContent → Except String String :=
  fun _ _ => .error "All models exhausted after maximum retries"

/-- A registry holding one instance already in `error` status. -/
def errorManager : InstanceManager :=
  ⟨[("a",
    { id := "a"
      config := sampleConfig
      status := .error
      lastUpdate := 0
      cronJob := none })]⟩

/-! ## Theorems -/

theorem mapGet_mapSet_self {α : Type} (m : List (String × α)) (k : String)
    (v : α) : mapGet (mapSet m k v) k = some v := by
  induction m with
  | nil => simp [mapGet, mapSet, List.find?]
  | cons p rest ih =>
    by_cases hp : (p.1 == k) = true
    · simp [mapGet, mapSet, hp, List.find?]
    · simp only [mapSet, hp, if_false]
      simpa [mapGet, List.find?, hp] using ih

theorem mapGet_mapSet_ne {α : Type} (m : List (String × α)) (k k' : String)
    (v : α) (hne : k' ≠ k) : mapGet (mapSet m k v) k' = mapGet m k' := by
  have hkk' : (k == k') = false := by
    simpa using fun e => hne e.symm
  induction m with
  | nil => simp [mapGet, mapSet, List.find?, hkk']
  | cons p rest ih =>
    by_cases hp : (p.1 == k) = true
    · have hpk : p.1 = k := by simpa using hp
      have hp' : (p.1 == k') = false := by
        simp [hpk]
        simpa using fun e => hne e.symm
      simp [mapGet, mapSet, hp, List.find?, hkk', hp']
    · simp only [mapSet, hp, if_false]
      by_cases hq : (p.1 == k') = true
      · simp [mapGet, List.find?, hq]
      · simpa [mapGet, List.find?, hq] using ih

/-- C10: a retry budget of zero fails immediately with the
exhausted-retries error, without consulting any backend and leaving the
cursor and the cooldown record untouched. -/
theorem generateResponse_zero_retries (call : Nat → String → CallResult)
    (now : Int) (st : AIClientState) :
    generateResponse call now st 0 =
      (.error "All models exhausted after maximum retries", st) := by
  rw [generateResponse, generateLoop]
  simp

theorem downgradeModel_cooldown (st : AIClientState) :
    (downgradeModel st).rateLimitCooldown = st.rateLimitCooldown := by
  unfold downgradeModel
  split <;> rfl

theorem downgradeModel_models (st : AIClientState) :
    (downgradeModel st).models = st.models := by
  unfold downgradeModel
  split <;> rfl

/-- Auxiliary induction for C4: if no backend invocation ever succeeds,
the loop ends in the exhausted-retries error. -/
theorem generateLoop_allFail (call : Nat → String → CallResult) (now : Int)
    (maxRetries : Nat) :
    ∀ fuel attempts st, maxRetries - attempts ≤ fuel →
      (∀ i m t, call i m ≠ .success t) →
      (generateLoop call now maxRetries attempts st).1 =
        .error "All models exhausted after maximum retries" := by
  intro fuel
  induction fuel with
  | zero =>
    intro attempts st hf _
    have h : ¬ attempts < maxRetries := by omega
    rw [generateLoop, if_neg h]
  | succ n ih =>
    intro attempts st hf hfail
    rw [generateLoop]
    by_cases h : attempts < maxRetries
    · rw [if_pos h]
      by_cases hc : inCooldown st (getCurrentModel st) now
      · rw [if_pos hc]
        exact ih (attempts + 1) _ (by omega) hfail
      · rw [if_neg hc]
        rcases hcall : call attempts (getCurrentModel st) with t | msg
        · exact absurd hcall (hfail _ _ _)
        · simp only [hcall]
          exact ih (attempts + 1) _ (by omega) hfail
    · rw [if_neg h]

/-- Auxiliary induction for C4: a returned text always originates from
some backend invocation that reported success. -/
theorem generateLoop_ok_of_success (call : Nat → String → CallResult)
    (now : Int) (maxRetries : Nat) :
    ∀ fuel attempts st t, maxRetries - attempts ≤ fuel →
      (generateLoop call now maxRetries attempts st).1 = .ok t →
      ∃ i m, call i m = .success t := by
  intro fuel
  induction fuel with
  | zero =>
    intro attempts st t hf hok
    have h : ¬ attempts < maxRetries := by omega
    rw [generateLoop, if_neg h] at hok
    exact absurd hok (by simp)
  | succ n ih =>
    intro attempts st t hf hok
    rw [generateLoop] at hok
    by_cases h : attempts < maxRetries
    · rw [if_pos h] at hok
      by_cases hc : inCooldown st (getCurrentModel st) now
      · rw [if_pos hc] at hok
        exact ih (attempts + 1) _ t (by omega) hok
      · rw [if_neg hc] at hok
        rcases hcall : call attempts (getCurrentModel st) with s | msg
        · simp only [hcall] at hok
          simp only [Except.ok.injEq] at hok
          exact ⟨attempts, getCurrentModel st, by rw [hcall, hok]⟩
        · simp only [hcall] at hok
          exact ih (attempts + 1) _ t (by omega) hok
    · rw [if_neg h] at hok
      exact absurd hok (by simp)

/-- C4: for any retry budget of at least one attempt, `generateResponse`
settles: if every backend invocation fails (cooldown skips included,
since they consume attempts without invoking anything), the call ends in
the exhausted-retries error; any returned text is the result of some
backend invocation that succeeded; and any attempt that invokes its
backend and succeeds makes the loop return exactly that backend's
result at once — `generateResponse` runs the loop from attempt 0, so
this last clause, instantiated at the state the loop has reached, is
the claim's "if any attempt succeeds the call returns that backend's
result". -/
theorem generateResponse_exhausts_or_returns
    (call : Nat → String → CallResult) (now : Int) (maxRetries : Nat)
    (st : AIClientState) (hmr : 1 ≤ maxRetries) :
    ((∀ i m t, call i m ≠ .success t) →
        (generateResponse call now st maxRetries).1 =
          .error "All models exhausted after maximum retries") ∧
    (∀ t, (generateResponse call now st maxRetries).1 = .ok t →
        ∃ i m, call i m = .success t) ∧
    (∀ attempts st' t, attempts < maxRetries →
        inCooldown st' (getCurrentModel st') now = false →
        call attempts (getCurrentModel st') = .success t →
        generateLoop call now maxRetries attempts st' =
          (.ok t, upgradeModelIfPossible st' now)) := by
  refine ⟨fun hfail => ?_, fun t hok => ?_,
    fun attempts st' t hatt hcool hsucc => ?_⟩
  · exact generateLoop_allFail call now maxRetries maxRetries 0 st
      (by omega) hfail
  · exact generateLoop_ok_of_success call now maxRetries maxRetries 0 st t
      (by omega) hok
  · rw [generateLoop, if_pos hatt]
    simp only [hcool, Bool.false_eq_true, if_false, hsucc]

/-- Witness for C4: the concrete always-failing backend oracle exhausts
the retry budget, and a first-attempt success is returned as the call's
result. -/
theorem generateResponse_exhausts_witness :
    (generateResponse
        (fun _ _ => .failure "api_error: Service temporarily unavailable")
        0 initialAIClientState 3).1 =
      .error "All models exhausted after maximum retries" ∧
    generateResponse (fun _ _ => .success "mock response") 0
        initialAIClientState 3 =
      (.ok "mock response",
        upgradeModelIfPossible initialAIClientState 0) :=
  ⟨(generateResponse_exhausts_or_returns
      (fun _ _ => .failure "api_error: Service temporarily unavailable")
      0 3 initialAIClientState (by omega)).1
    (fun _ _ _ h => CallResult.noConfusion h),
   (generateResponse_exhausts_or_returns
      (fun _ _ => .success "mock response") 0 3 initialAIClientState
      (by omega)).2.2 0 initialAIClientState "mock response" (by omega)
    (by decide) rfl⟩

/-- C3: when the attempt at rank 0 fails with a rate-limit-classified
error, the rank-0 backend's cooldown-expiry becomes `now + 5` minutes
and the cursor moves to rank 1, so the very next attempt targets a
backend different from backend 0; while that cooldown lasts, backend 0
keeps reporting as in cooldown. -/
theorem generateResponse_rateLimit_rotates
    (call : Nat → String → CallResult) (now : Int)
    (maxRetries attempts : Nat) (st st' : AIClientState) (msg : String)
    (hidx : st.currentModelIndex = 0)
    (hlen : 2 ≤ st.models.length)
    (hnodup : st.models.Nodup)
    (hnow : 0 ≤ now)
    (hcool : inCooldown st (getCurrentModel st) now = false)
    (hatt : attempts < maxRetries)
    (hfail : call attempts (getCurrentModel st) = .failure msg)
    (hrl : isRateLimitError msg = true)
    (hst' : st' = downgradeModel
      (setCooldown st (getCurrentModel st) (now + 5 * 60 * 1000))) :
    generateLoop call now maxRetries attempts st =
      generateLoop call now maxRetries (attempts + 1) st' ∧
    st'.currentModelIndex = 1 ∧
    cooldownOf st' (st.models.getD 0 "") = some (now + 5 * 60 * 1000) ∧
    getCurrentModel st' ≠ st.models.getD 0 "" ∧
    (∀ t : Int, t < now + 5 * 60 * 1000 →
      inCooldown st' (st.models.getD 0 "") t = true) := by
  have hm0 : getCurrentModel st = st.models.getD 0 "" := by
    rw [getCurrentModel, hidx]
  have hsetIdx : (setCooldown st (getCurrentModel st)
      (now + 5 * 60 * 1000)).currentModelIndex = 0 := hidx
  have hsetModels : (setCooldown st (getCurrentModel st)
      (now + 5 * 60 * 1000)).models = st.models := rfl
  have hidx' : st'.currentModelIndex = 1 := by
    rw [hst', downgradeModel]
    rw [if_pos (show (setCooldown st (getCurrentModel st)
        (now + 5 * 60 * 1000)).currentModelIndex <
          (setCooldown st (getCurrentModel st)
            (now + 5 * 60 * 1000)).models.length - 1 from by
      show st.currentModelIndex < st.models.length - 1
      omega)]
    show st.currentModelIndex + 1 = 1
    omega
  have hmodels' : st'.models = st.models := by
    rw [hst', downgradeModel_models, hsetModels]
  have hcd : cooldownOf st' (st.models.getD 0 "") =
      some (now + 5 * 60 * 1000) := by
    rw [cooldownOf, hst', downgradeModel_cooldown]
    show mapGet (mapSet st.rateLimitCooldown (getCurrentModel st)
      (now + 5 * 60 * 1000)) (st.models.getD 0 "") = _
    rw [← hm0, mapGet_mapSet_self]
  refine ⟨?_, hidx', hcd, ?_, ?_⟩
  · conv_lhs => rw [generateLoop, if_pos hatt]
    simp only [hcool, Bool.false_eq_true, if_false, hfail, hrl, if_true,
      hst']
  · have hget' : getCurrentModel st' = st.models.getD 1 "" := by
      rw [getCurrentModel, hidx', hmodels']
    rw [hget']
    have h0 : st.models.getD 0 "" = st.models.get ⟨0, by omega⟩ := by
      rw [List.getD_eq_getElem?_getD, List.getElem?_eq_getElem (by omega)]
      simp [List.get_eq_getElem]
    have h1 : st.models.getD 1 "" = st.models.get ⟨1, by omega⟩ := by
      rw [List.getD_eq_getElem?_getD, List.getElem?_eq_getElem (by omega)]
      simp [List.get_eq_getElem]
    rw [h0, h1]
    intro heq
    have := (List.Nodup.get_inj_iff hnodup).mp heq
    simp at this
  · intro t ht
    unfold inCooldown
    rw [hcd]
    simp only [beq_iff_eq, Bool.and_eq_true, Bool.not_eq_true',
      decide_eq_true_eq, decide_eq_false_iff_not]
    constructor
    · simp only [beq_eq_false_iff_ne, ne_eq]
      omega
    · simpa using ht

/-- Witness for C3: the freshly constructed client, a rate-limited
failure at rank 0, concrete time 1000. -/
theorem generateResponse_rateLimit_witness :
    (downgradeModel (setCooldown initialAIClientState
        (getCurrentModel initialAIClientState)
        (1000 + 5 * 60 * 1000))).currentModelIndex = 1 ∧
    cooldownOf (downgradeModel (setCooldown initialAIClientState
        (getCurrentModel initialAIClientState) (1000 + 5 * 60 * 1000)))
      (initialAIClientState.models.getD 0 "") = some (1000 + 5 * 60 * 1000) ∧
    getCurrentModel (downgradeModel (setCooldown initialAIClientState
        (getCurrentModel initialAIClientState) (1000 + 5 * 60 * 1000))) ≠
      initialAIClientState.models.getD 0 "" := by
  have h := generateResponse_rateLimit_rotates
    (fun _ _ => .failure "rate_limit: Too many requests") 1000 3 0
    initialAIClientState
    (downgradeModel (setCooldown initialAIClientState
      (getCurrentModel initialAIClientState) (1000 + 5 * 60 * 1000)))
    "rate_limit: Too many requests"
    rfl (by decide) (by decide) (by decide) (by decide) (by decide) rfl
    (by decide) rfl
  exact ⟨h.2.1, h.2.2.1, h.2.2.2.1⟩

theorem addItem_maxItemsPerFeed (locDate locTime : Int → String)
    (mgr : RSSFeedManager) (format content : String) (config : AgentConfig)
    (attr : String) (now : Int) :
    (addItem locDate locTime mgr format content config attr now).maxItemsPerFeed
      = mgr.maxItemsPerFeed := by
  unfold addItem
  cases h : mapGet mgr.feeds format <;> simp [h]

theorem getFeed_addItem_none (locDate locTime : Int → String)
    (mgr : RSSFeedManager) (format content : String) (config : AgentConfig)
    (attr : String) (now : Int) (h : getFeed mgr format = none) :
    getFeed (addItem locDate locTime mgr format content config attr now)
        format =
      some (createFeedForFormat locDate locTime format content config attr
        now) := by
  unfold getFeed at h ⊢
  unfold addItem
  rw [h]
  exact mapGet_mapSet_self _ _ _

theorem getFeed_addItem_some (locDate locTime : Int → String)
    (mgr : RSSFeedManager) (format content : String) (config : AgentConfig)
    (attr : String) (now : Int) (fd : RSSFeed)
    (h : getFeed mgr format = some fd) :
    ∃ fd', getFeed (addItem locDate locTime mgr format content config attr
        now) format = some fd' ∧
      fd'.items =
        (newFeedItem locDate locTime format content config attr now ::
          fd.items).take mgr.maxItemsPerFeed := by
  unfold getFeed at h
  unfold getFeed addItem
  rw [h]
  refine ⟨_, mapGet_mapSet_self _ _ _, ?_⟩
  simp only [createFeedForFormat, List.singleton_append, List.length_cons]
  by_cases hgt : fd.items.length + 1 > mgr.maxItemsPerFeed
  · rw [if_pos hgt]
  · rw [if_neg hgt]
    rw [List.take_of_length_le (by simp only [List.length_cons]; omega)]

theorem take_cons_take {α : Type} (n : Nat) (x : α) (l : List α) :
    (x :: l.take n).take n = (x :: l).take n := by
  cases n with
  | zero => simp
  | succ m =>
    simp only [List.take_succ_cons, List.take_take]
    rw [Nat.min_eq_left (Nat.le_succ m)]

theorem applyAppends_append_singleton (locDate locTime : Int → String)
    (format : String) (calls : List AppendCall) (c : AppendCall)
    (mgr : RSSFeedManager) :
    applyAppends locDate locTime format (calls ++ [c]) mgr =
      addItem locDate locTime
        (applyAppends locDate locTime format calls mgr) format c.content
        c.config c.sourceAttribution c.now := by
  unfold applyAppends
  rw [List.foldl_append]
  rfl

/-- Invariant maintained by replaying appends from the fresh manager:
the stored bound stays 50, and the category's feed holds exactly the
newest-first (reversed) sequence of constructed items truncated to 50. -/
theorem applyAppends_invariant (locDate locTime : Int → String)
    (format : String) (calls : List AppendCall) :
    (applyAppends locDate locTime format calls
        emptyRSSFeedManager).maxItemsPerFeed = 50 ∧
    ((calls = [] ∧ getFeed (applyAppends locDate locTime format calls
        emptyRSSFeedManager) format = none) ∨
      (∃ fd, getFeed (applyAppends locDate locTime format calls
          emptyRSSFeedManager) format = some fd ∧
        fd.items =
          ((calls.map (appendItem locDate locTime format)).reverse).take 50)) := by
  induction calls using List.reverseRecOn with
  | nil =>
    refine ⟨rfl, Or.inl ⟨rfl, ?_⟩⟩
    simp [applyAppends, getFeed, emptyRSSFeedManager, mapGet]
  | append_singleton cs c ih =>
    obtain ⟨hmax, hcases⟩ := ih
    rw [applyAppends_append_singleton]
    refine ⟨by rw [addItem_maxItemsPerFeed, hmax], Or.inr ?_⟩
    rcases hcases with ⟨hnil, hnone⟩ | ⟨fd, hsome, hitems⟩
    · subst hnil
      refine ⟨_, getFeed_addItem_none _ _ _ _ _ _ _ _ hnone, ?_⟩
      simp [createFeedForFormat, appendItem]
    · obtain ⟨fd', hgf, hit⟩ := getFeed_addItem_some locDate locTime _
        format c.content c.config c.sourceAttribution c.now fd hsome
      refine ⟨fd', hgf, ?_⟩
      rw [hit, hmax, hitems]
      rw [take_cons_take]
      simp [appendItem]

/-- The category's stored items after replaying a sequence of appends:
the reversed (newest-first) sequence of constructed items, truncated to
the 50-item bound. -/
theorem applyAppends_itemsOf (locDate locTime : Int → String)
    (format : String) (calls : List AppendCall) :
    itemsOf (applyAppends locDate locTime format calls emptyRSSFeedManager)
        format =
      ((calls.map (appendItem locDate locTime format)).reverse).take 50 := by
  obtain ⟨hmax, hcase⟩ := applyAppends_invariant locDate locTime format calls
  rcases hcase with ⟨hnil, hnone⟩ | ⟨fd, hsome, hit⟩
  · subst hnil
    unfold itemsOf
    rw [hnone]
    simp
  · unfold itemsOf
    rw [hsome]
    exact hit

/-- C2: replaying any sequence of `addItem` calls against one category
from a fresh manager leaves that category's feed holding exactly the
newest-first (most recent append first) sequence of constructed items
with the oldest tail truncated at 50 — in particular the feed length
never exceeds `maxItemsPerFeed = 50` after any append. -/
theorem addItem_bounded_newest_first (locDate locTime : Int → String)
    (format : String) (calls : List AppendCall) :
    itemsOf (applyAppends locDate locTime format calls emptyRSSFeedManager)
        format =
      ((calls.map (appendItem locDate locTime format)).reverse).take 50 ∧
    (itemsOf (applyAppends locDate locTime format calls
        emptyRSSFeedManager) format).length ≤ 50 := by
  refine ⟨applyAppends_itemsOf locDate locTime format calls, ?_⟩
  rw [applyAppends_itemsOf]
  exact List.length_take_le _ _

theorem pubDateDescLE_trans (a b c : String × RSSItem)
    (hab : pubDateDescLE a b) (hbc : pubDateDescLE b c) :
    pubDateDescLE a c := by
  simp only [pubDateDescLE, decide_eq_true_eq] at hab hbc ⊢
  omega

theorem pubDateDescLE_total (a b : String × RSSItem) :
    pubDateDescLE a b || pubDateDescLE b a := by
  simp only [pubDateDescLE, Bool.or_eq_true, decide_eq_true_eq]
  omega

/-- C6: `getLatestItems` returns at most `limit` items, at most the
total number of stored items, sorted by publication date descending;
and the underlying stable sort preserves the stored order within every
class of equal publication dates (ties broken by insertion order). -/
theorem getLatestItems_sorted_bounded (mgr : RSSFeedManager)
    (limit : Nat) :
    (getLatestItems mgr limit).length ≤ limit ∧
    (getLatestItems mgr limit).length ≤ (allFeedItems mgr).length ∧
    List.Pairwise (fun a b => b.2.pubDate ≤ a.2.pubDate)
      (getLatestItems mgr limit) ∧
    ∀ t : Int,
      ((allFeedItems mgr).mergeSort pubDateDescLE).filter
          (fun x => x.2.pubDate == t) =
        (allFeedItems mgr).filter (fun x => x.2.pubDate == t) := by
  refine ⟨?_, ?_, ?_, ?_⟩
  · exact List.length_take_le _ _
  · unfold getLatestItems
    have h1 := List.length_take_le limit
      ((allFeedItems mgr).mergeSort pubDateDescLE)
    have h2 : ((allFeedItems mgr).mergeSort pubDateDescLE).length =
        (allFeedItems mgr).length := List.length_mergeSort _
    simp only [List.length_take]
    omega
  · have hs := List.sorted_mergeSort pubDateDescLE_trans pubDateDescLE_total
      (allFeedItems mgr)
    have hp : (getLatestItems mgr limit).Pairwise
        (fun a b => pubDateDescLE a b) :=
      hs.sublist (List.take_sublist _ _)
    exact hp.imp (fun h => by
      simpa only [pubDateDescLE, decide_eq_true_eq] using h)
  · intro t
    have hpw : ((allFeedItems mgr).filter
        (fun x => x.2.pubDate == t)).Pairwise (fun a b => pubDateDescLE a b) := by
      apply List.pairwise_of_forall_mem_list
      intro a ha b hb
      have ha' := List.of_mem_filter ha
      have hb' := List.of_mem_filter hb
      simp only [beq_iff_eq] at ha' hb'
      simp only [pubDateDescLE, decide_eq_true_eq, ha', hb']
      omega
    have hsub : List.Sublist
        ((allFeedItems mgr).filter (fun x => x.2.pubDate == t))
        ((allFeedItems mgr).mergeSort pubDateDescLE) :=
      List.sublist_mergeSort pubDateDescLE_trans pubDateDescLE_total hpw
        (List.filter_sublist _)
    have hsub2 : List.Sublist
        ((allFeedItems mgr).filter (fun x => x.2.pubDate == t))
        (((allFeedItems mgr).mergeSort pubDateDescLE).filter
          (fun x => x.2.pubDate == t)) := by
      have h := hsub.filter (fun x => x.2.pubDate == t)
      rwa [List.filter_filter, (by
        funext x
        exact Bool.and_self _ : (fun x : String × RSSItem =>
          ((x.2.pubDate == t) && (x.2.pubDate == t))) =
            (fun x => x.2.pubDate == t))] at h
    have hlen : (((allFeedItems mgr).mergeSort pubDateDescLE).filter
          (fun x => x.2.pubDate == t)).length =
        ((allFeedItems mgr).filter (fun x => x.2.pubDate == t)).length :=
      ((List.mergeSort_perm (allFeedItems mgr) pubDateDescLE).filter
        _).length_eq
    exact (hsub2.eq_of_length hlen.symm).symm

theorem getFeed_map_feeds (mgr : RSSFeedManager) (g : RSSFeed → RSSFeed)
    (format : String) :
    mapGet (mgr.feeds.map (fun p => (p.1, g p.2))) format =
      (mapGet mgr.feeds format).map g := by
  induction mgr.feeds with
  | nil => simp [mapGet]
  | cons p rest ih =>
    by_cases hp : (p.1 == format) = true
    · simp [mapGet, List.find?, hp]
    · simpa [mapGet, List.find?, hp] using ih

/-- C7 (amended): `clearOldItems` keeps exactly the items whose publish
time is strictly newer than the cutoff — equivalently it removes exactly
the items whose publish time is less than *or equal to* `now - h` hours
— and repeating the call with no time elapsed removes nothing at all
(the second pass leaves the whole manager unchanged). -/
theorem clearOldItems_removes_le_cutoff_idempotent
    (mgr : RSSFeedManager) (now h : Int) :
    (∀ format it, it ∈ itemsOf (clearOldItems mgr now h) format ↔
      (it ∈ itemsOf mgr format ∧ now - h * 60 * 60 * 1000 < it.pubDate)) ∧
    clearOldItems (clearOldItems mgr now h) now h =
      clearOldItems mgr now h := by
  constructor
  · intro format it
    unfold itemsOf getFeed clearOldItems
    simp only
    rw [getFeed_map_feeds mgr (fun fd => { fd with
      items := fd.items.filter
        (fun it => decide (now - h * 60 * 60 * 1000 < it.pubDate)) }) format]
    cases hf : mapGet mgr.feeds format with
    | none => simp
    | some fd =>
      simp [List.mem_filter]
  · unfold clearOldItems
    simp only [List.map_map]
    congr 1
    apply List.map_congr_left
    intro p _
    simp only [Function.comp_apply]
    congr 1
    congr 1
    rw [List.filter_filter]
    apply List.filter_congr
    intro it _
    exact Bool.and_self _

/-- C7 counterexample: with `now` exactly 168 hours, the cutoff is 0 and
the stored item's publish time is exactly 0 — not strictly older than
the cutoff — yet `clearOldItems` removes it, refuting "removes exactly
the items with publish time older than `now - h`". -/
theorem clearOldItems_boundary_counterexample :
    itemsOf boundaryFeedManager "info" ≠ [] ∧
    (∀ it ∈ itemsOf boundaryFeedManager "info",
      ¬(it.pubDate < 604800000 - 168 * 60 * 60 * 1000)) ∧
    itemsOf (clearOldItems boundaryFeedManager 604800000 168) "info" = [] := by
  refine ⟨by decide, ?_, by decide⟩
  decide

theorem digitVal_digitChar : ∀ m : Nat, m < 10 →
    digitVal (Nat.digitChar m) = m := by decide

theorem toDigitsCore_append_acc (b : Nat) :
    ∀ fuel n ds, Nat.toDigitsCore b fuel n ds =
      Nat.toDigitsCore b fuel n [] ++ ds := by
  intro fuel
  induction fuel with
  | zero => intro n ds; simp [Nat.toDigitsCore]
  | succ f ih =>
    intro n ds
    simp only [Nat.toDigitsCore]
    by_cases h : n / b = 0
    · simp [h]
    · rw [if_neg h, if_neg h, ih (n / b) (Nat.digitChar (n % b) :: ds),
        ih (n / b) [Nat.digitChar (n % b)], List.append_assoc]
      rfl

theorem decodeDigits_append_singleton (l : List Char) (c : Char) :
    decodeDigits (l ++ [c]) = decodeDigits l * 10 + digitVal c := by
  unfold decodeDigits
  rw [List.foldl_append]
  rfl

theorem decodeDigits_toDigitsCore :
    ∀ fuel n, n < fuel →
      decodeDigits (Nat.toDigitsCore 10 fuel n []) = n := by
  intro fuel
  induction fuel with
  | zero => intro n h; omega
  | succ f ih =>
    intro n h
    simp only [Nat.toDigitsCore]
    by_cases hz : n / 10 = 0
    · rw [if_pos hz]
      show decodeDigits [Nat.digitChar (n % 10)] = n
      unfold decodeDigits
      simp only [List.foldl_cons, List.foldl_nil, Nat.zero_mul, Nat.zero_add]
      rw [digitVal_digitChar (n % 10) (Nat.mod_lt _ (by norm_num))]
      omega
    · rw [if_neg hz]
      rw [toDigitsCore_append_acc]
      rw [decodeDigits_append_singleton]
      rw [ih (n / 10) (by omega)]
      rw [digitVal_digitChar (n % 10) (Nat.mod_lt _ (by norm_num))]
      omega

theorem natRepr_injective (m n : Nat) (h : Nat.repr m = Nat.repr n) :
    m = n := by
  have h' : Nat.toDigits 10 m = Nat.toDigits 10 n := by
    have hd := congrArg String.data h
    simpa [Nat.repr, List.asString] using hd
  have hm := decodeDigits_toDigitsCore (m + 1) m (Nat.lt_succ_self m)
  have hn := decodeDigits_toDigitsCore (n + 1) n (Nat.lt_succ_self n)
  unfold Nat.toDigits at h'
  rw [← hm, ← hn, h']

theorem mem_toDigitsCore_ten :
    ∀ fuel n c, c ∈ Nat.toDigitsCore 10 fuel n [] →
      ∃ m, m < 10 ∧ c = Nat.digitChar m := by
  intro fuel
  induction fuel with
  | zero => intro n c h; simp [Nat.toDigitsCore] at h
  | succ f ih =>
    intro n c h
    simp only [Nat.toDigitsCore] at h
    by_cases hz : n / 10 = 0
    · rw [if_pos hz] at h
      simp only [List.mem_singleton] at h
      exact ⟨n % 10, Nat.mod_lt _ (by norm_num), h⟩
    · rw [if_neg hz] at h
      rw [toDigitsCore_append_acc] at h
      rcases List.mem_append.mp h with h1 | h1
      · exact ih _ c h1
      · simp only [List.mem_singleton] at h1
        exact ⟨n % 10, Nat.mod_lt _ (by norm_num), h1⟩

theorem digitChar_ne_dash : ∀ m : Nat, m < 10 →
    Nat.digitChar m ≠ Char.ofNat 45 := by decide

theorem dash_not_mem_natRepr (n : Nat) :
    Char.ofNat 45 ∉ (Nat.repr n).data := by
  intro hmem
  have hmem' : Char.ofNat 45 ∈ Nat.toDigits 10 n := by
    simpa [Nat.repr, List.asString] using hmem
  obtain ⟨m, hm, hc⟩ := mem_toDigitsCore_ten (n + 1) n _ hmem'
  exact digitChar_ne_dash m hm hc.symm

theorem intToString_injective (a b : Int) (h : toString a = toString b) :
    a = b := by
  have h' : Int.repr a = Int.repr b := h
  cases a with
  | ofNat m =>
    cases b with
    | ofNat n =>
      simp only [Int.repr] at h'
      exact congrArg Int.ofNat (natRepr_injective m n h')
    | negSucc n =>
      exfalso
      simp only [Int.repr] at h'
      have hd := congrArg String.data h'
      rw [String.data_append] at hd
      have : Char.ofNat 45 ∈ (Nat.repr m).data := by
        rw [hd]
        exact List.mem_append_left _ (by decide)
      exact dash_not_mem_natRepr m this
  | negSucc m =>
    cases b with
    | ofNat n =>
      exfalso
      simp only [Int.repr] at h'
      have hd := congrArg String.data h'
      rw [String.data_append] at hd
      have : Char.ofNat 45 ∈ (Nat.repr n).data := by
        rw [← hd]
        exact List.mem_append_left _ (by decide)
      exact dash_not_mem_natRepr n this
    | negSucc n =>
      simp only [Int.repr] at h'
      have hd := congrArg String.data h'
      rw [String.data_append, String.data_append] at hd
      have hrepr : Nat.repr (Nat.succ m) = Nat.repr (Nat.succ n) := by
        apply String.ext
        exact List.append_cancel_left hd
      have hsucc := natRepr_injective _ _ hrepr
      exact congrArg Int.negSucc (Nat.succ.inj hsucc)

theorem string_append_left_cancel (a x y : String) (h : a ++ x = a ++ y) :
    x = y := by
  have hd := congrArg String.data h
  rw [String.data_append, String.data_append] at hd
  exact String.ext (List.append_cancel_left hd)

/-- The item identifier `coasagent-{format}-{timestamp}` determines the
timestamp within a fixed category. -/
theorem itemId_injective (format : String) (t1 t2 : Int)
    (h : "coasagent-" ++ format ++ "-" ++ toString t1 =
      "coasagent-" ++ format ++ "-" ++ toString t2) : t1 = t2 :=
  intToString_injective _ _
    (string_append_left_cancel ("coasagent-" ++ format ++ "-") _ _ h)

/-- C8 (amended): as long as no two appends to a category share the same
millisecond timestamp, all stored items of that category carry pairwise
distinct identifiers. -/
theorem addItem_distinct_times_distinct_ids (locDate locTime : Int → String)
    (format : String) (calls : List AppendCall)
    (hne : calls.Pairwise (fun a b => a.now ≠ b.now)) :
    (itemsOf (applyAppends locDate locTime format calls emptyRSSFeedManager)
        format).Pairwise (fun a b => a.id ≠ b.id) := by
  rw [applyAppends_itemsOf]
  refine List.Pairwise.sublist (List.take_sublist 50 _) ?_
  rw [List.pairwise_reverse, List.pairwise_map]
  refine hne.imp ?_
  intro a b hab heq
  exact hab (itemId_injective format b.now a.now heq).symm

/-- C8 counterexample: two appends to the `info` category in the same
millisecond store two distinct items (different content) carrying the
same identifier `coasagent-info-5`, refuting uniqueness of identifiers
within a category for arbitrary append sequences. -/
theorem addItem_duplicate_id_counterexample :
    (itemsOf (applyAppends (fun _ => "d") (fun _ => "t") "info"
        sameMillisecondCalls emptyRSSFeedManager) "info").map (·.id) =
      ["coasagent-info-5", "coasagent-info-5"] ∧
    (itemsOf (applyAppends (fun _ => "d") (fun _ => "t") "info"
        sameMillisecondCalls emptyRSSFeedManager) "info").map (·.content) =
      ["second", "first"] := by
  constructor <;> rfl

/-- Witness for the amended C8 at two concrete distinct-time appends. -/
theorem addItem_distinct_times_witness :
    (itemsOf (applyAppends (fun _ => "d") (fun _ => "t") "info"
        distinctTimeCalls emptyRSSFeedManager) "info").Pairwise
      (fun a b => a.id ≠ b.id) :=
  addItem_distinct_times_distinct_ids (fun _ => "d") (fun _ => "t") "info"
    distinctTimeCalls (by decide)

theorem mem_dedupFirstAux : ∀ (l : List String) (seen : List String)
    (s : String), s ∈ dedupFirstAux seen l ↔ (s ∈ l ∧ s ∉ seen) := by
  intro l
  induction l with
  | nil => intro seen s; simp [dedupFirstAux]
  | cons x xs ih =>
    intro seen s
    rw [dedupFirstAux]
    by_cases hx : seen.contains x
    · rw [if_pos hx]
      rw [ih]
      constructor
      · rintro ⟨h1, h2⟩
        exact ⟨List.mem_cons_of_mem _ h1, h2⟩
      · rintro ⟨h1, h2⟩
        rcases List.mem_cons.mp h1 with h | h
        · subst h
          exact absurd (by simpa using hx) h2
        · exact ⟨h, h2⟩
    · rw [if_neg hx]
      constructor
      · intro hmem
        rcases List.mem_cons.mp hmem with h | h
        · subst h
          exact ⟨List.mem_cons_self _ _, by simpa using hx⟩
        · obtain ⟨h1, h2⟩ := (ih (x :: seen) s).mp h
          exact ⟨List.mem_cons_of_mem _ h1,
            fun hm => h2 (List.mem_cons_of_mem _ hm)⟩
      · rintro ⟨h1, h2⟩
        rcases List.mem_cons.mp h1 with h | h
        · subst h
          exact List.mem_cons_self _ _
        · by_cases hsx : s = x
          · subst hsx
            exact List.mem_cons_self _ _
          · refine List.mem_cons_of_mem _ ((ih (x :: seen) s).mpr ⟨h, ?_⟩)
            intro hm
            rcases List.mem_cons.mp hm with h1 | h1
            · exact hsx h1
            · exact h2 h1

theorem mem_dedupFirst (l : List String) (s : String) :
    s ∈ dedupFirst l ↔ s ∈ l := by
  unfold dedupFirst
  rw [mem_dedupFirstAux]
  simp

theorem nodup_dedupFirstAux : ∀ (l : List String) (seen : List String),
    (dedupFirstAux seen l).Nodup := by
  intro l
  induction l with
  | nil => intro seen; exact List.nodup_nil
  | cons x xs ih =>
    intro seen
    rw [dedupFirstAux]
    by_cases hx : seen.contains x
    · rw [if_pos hx]
      exact ih seen
    · rw [if_neg hx]
      refine List.Nodup.cons ?_ (ih (x :: seen))
      intro hmem
      have := ((mem_dedupFirstAux xs (x :: seen) x).mp hmem).2
      simp at this

theorem nodup_dedupFirst (l : List String) : (dedupFirst l).Nodup :=
  nodup_dedupFirstAux l []

/-- C9 (amended): the attribution string names the distinct source
identifiers (no duplicates, exactly the sources occurring among the
collected items, in first-occurrence order), lists the first three
joined by commas, and carries the literal ellipsis suffix `"..."` —
not a `"+N more"` suffix — exactly when more than three distinct
sources exist. -/
theorem sourceAttribution_distinct_sources
    (collectedData : List ProcessedContent) :
    (dedupFirst (collectedData.map (·.source))).Nodup ∧
    (∀ s, s ∈ dedupFirst (collectedData.map (·.source)) ↔
      s ∈ collectedData.map (·.source)) ∧
    sourceAttributionOf collectedData =
      "Generated from " ++
        toString (dedupFirst (collectedData.map (·.source))).length ++
        " sources: " ++
        String.intercalate ", "
          ((dedupFirst (collectedData.map (·.source))).take 3) ++
        (if (dedupFirst (collectedData.map (·.source))).length > 3 then
          "..." else "") :=
  ⟨nodup_dedupFirst _, fun s => mem_dedupFirst _ s, rfl⟩

/-- C9 counterexample: with four distinct sources the attribution string
ends in the literal `"..."`; it contains no `"+1 more"` (indeed no
`"more"` at all), refuting the claimed `"+N more"` suffix. -/
theorem sourceAttribution_ellipsis_counterexample :
    3 < (dedupFirst ([srcItem "a", srcItem "b", srcItem "c",
      srcItem "d"].map (·.source))).length ∧
    sourceAttributionOf [srcItem "a", srcItem "b", srcItem "c",
      srcItem "d"] = "Generated from 4 sources: a, b, c..." ∧
    ¬ ("+1 more".data <:+ (sourceAttributionOf [srcItem "a", srcItem "b",
      srcItem "c", srcItem "d"]).data) ∧
    ¬ ("more".data <:+: (sourceAttributionOf [srcItem "a", srcItem "b",
      srcItem "c", srcItem "d"]).data) := by
  refine ⟨by decide, by rfl, by decide, by decide⟩

/-- C1: evaluating a cycle whose Processor throws.  The catch block sets
status `error` but then calls `stopInstance`, which overwrites the
status to `stopped` — so the instance ends the cycle `stopped`, not
`error` (the timer is cleared and a later cycle is a no-op, as the
claim also demands, but the `error` status the spec requires is lost). -/
theorem executeAgentCycle_throw_ends_stopped :
    statusOf (executeAgentCycle collectOne processThrow (fun _ => "d")
      (fun _ => "t") 7 runningManager emptyRSSFeedManager "a").1 "a" =
      some .stopped ∧
    cronJobOf (executeAgentCycle collectOne processThrow (fun _ => "d")
      (fun _ => "t") 7 runningManager emptyRSSFeedManager "a").1 "a" =
      some none ∧
    (executeAgentCycle collectOne processThrow (fun _ => "d")
      (fun _ => "t") 7 runningManager emptyRSSFeedManager "a").2 =
      emptyRSSFeedManager ∧
    executeAgentCycle collectOne processThrow (fun _ => "d")
      (fun _ => "t") 99
      (executeAgentCycle collectOne processThrow (fun _ => "d")
        (fun _ => "t") 7 runningManager emptyRSSFeedManager "a").1
      emptyRSSFeedManager "a" =
      ((executeAgentCycle collectOne processThrow (fun _ => "d")
        (fun _ => "t") 7 runningManager emptyRSSFeedManager "a").1,
       emptyRSSFeedManager) := by
  refine ⟨by decide, by decide, by decide, by decide⟩

/-- C5 counterexample: on an instance whose status is `error`,
`startInstance` succeeds and moves it to `running`, and `stopInstance`
succeeds and moves it to `stopped` — refuting the claim that neither
ever changes an `error` instance's status. -/
theorem startInstance_error_counterexample :
    statusOf errorManager "a" = some .error ∧
    (startInstance errorManager "a" 5 7).1 = true ∧
    statusOf (startInstance errorManager "a" 5 7).2 "a" = some .running ∧
    (stopInstance errorManager "a" 5).1 = true ∧
    statusOf (stopInstance errorManager "a" 5).2 "a" = some .stopped := by
  refine ⟨by decide, by decide, by decide, by decide, by decide⟩

/-- C5 (amended): `error` is not terminal with respect to the registry
operations: `start(id)` on an `error` instance succeeds, re-arms a
timer and sets it `running` (the explicit restart), and `stop(id)`
succeeds and sets it `stopped`. -/
theorem start_stop_on_error_instance (mgr : InstanceManager)
    (instanceId : String) (inst : AgentInstance) (now timerId : Int)
    (hget : mapGet mgr.instances instanceId = some inst)
    (herr : inst.status = .error) :
    (startInstance mgr instanceId now timerId).1 = true ∧
    statusOf (startInstance mgr instanceId now timerId).2 instanceId =
      some .running ∧
    cronJobOf (startInstance mgr instanceId now timerId).2 instanceId =
      some (some timerId) ∧
    (stopInstance mgr instanceId now).1 = true ∧
    statusOf (stopInstance mgr instanceId now).2 instanceId =
      some .stopped := by
  have hne : (inst.status == InstanceStatus.running) = false := by
    rw [herr]
    rfl
  unfold startInstance stopInstance
  rw [hget]
  simp only [hne, Bool.false_eq_true, if_false]
  refine ⟨trivial, ?_, ?_, trivial, ?_⟩
  · unfold statusOf
    rw [mapGet_mapSet_self]
    rfl
  · unfold cronJobOf
    rw [mapGet_mapSet_self]
    rfl
  · unfold statusOf
    rw [mapGet_mapSet_self]
    rfl

/-- Witness for the amended C5 at the concrete `error` registry. -/
theorem start_stop_on_error_witness :
    (startInstance errorManager "a" 5 7).1 = true ∧
    statusOf (startInstance errorManager "a" 5 7).2 "a" = some .running ∧
    cronJobOf (startInstance errorManager "a" 5 7).2 "a" =
      some (some 7) ∧
    (stopInstance errorManager "a" 5).1 = true ∧
    statusOf (stopInstance errorManager "a" 5).2 "a" = some .stopped :=
  start_stop_on_error_instance errorManager "a"
    { id := "a", config := sampleConfig, status := .error,
      lastUpdate := 0, cronJob := none } 5 7 rfl rfl
